import Mathlib

/-!
Verification development for the process-discovery and live-log-streaming
core of the roadmap dashboard (`roadmap-dashboard/server.js`, in the revised
snapshot embedded in `roadmap-dashboard/LOG_IMPROVEMENTS.md`, which is the
snapshot the specification describes).

The embedding keeps the shape of the JavaScript: stateful closures become
explicit state records plus step functions, OS observations (file sizes,
reads, the process table) become explicit inputs, and timers become the
delays the code passes to `setTimeout` / `setInterval`.
-/

namespace RoadmapDashboard

/-! ## Live tail watcher (`watchLogFile`) -/

/-- One event pushed to a tail subscriber by `watchLogFile`'s `sendContent`.
`fileData` carries file content (with the `isNew` flag the code attaches);
`rotatedMarker` stands for the fixed string `[Log file rotated or truncated]\n`,
`truncatedMarker` for `[Log file truncated]\n`, and `notFoundNotice` for
`[Log file <name> not found yet]\n`. -/
inductive TailEvent where
  | fileData (data : List Char) (isNew : Bool)
  | rotatedMarker
  | truncatedMarker
  | notFoundNotice
  deriving DecidableEq, Repr

/-- The mutable closure state of one `watchLogFile` invocation:
`position` is the byte offset already delivered, `retryCount` the
file-absent retry counter, `isClosed` the cleanup flag. -/
structure TailState where
  position : Nat
  retryCount : Nat
  isClosed : Bool
  deriving DecidableEq, Repr

/-- What one `fsSync.watchFile` poll callback observes: the previous and
current stat sizes (`prev.size`, `curr.size`), whether the file still exists
at the `existsSync` re-check, and the result of `readFileSync`
(`none` models a read failure). -/
structure PollObs where
  prevSize : Nat
  currSize : Nat
  stillExists : Bool
  readResult : Option (List Char)
  deriving DecidableEq, Repr

/-- The body of the `fsSync.watchFile` callback installed by `watchLogFile`
(`LOG_IMPROVEMENTS.md` lines 1524-1592): on growth, re-read the file and emit
only the suffix past `position`; on shrink, emit the truncation marker, reset
`position` to 0, re-read and emit the full new content.  Returns the events
sent through `sendContent` together with the updated closure state. -/
def watchFileTick (st : TailState) (obs : PollObs) : List TailEvent × TailState :=
  if st.isClosed then ([], st)
  else if obs.prevSize < obs.currSize ∨ (obs.prevSize = 0 ∧ 0 < obs.currSize) then
    if obs.stillExists = false then ([], st)
    else
      match obs.readResult with
      | none => ([], st)
      | some content =>
        if st.position < content.length then
          let newContent := content.drop st.position
          if newContent.isEmpty then ([], st)
          else ([.fileData newContent true], { st with position := content.length })
        else if content.length < st.position then
          if content.isEmpty then ([.rotatedMarker], { st with position := 0 })
          else ([.rotatedMarker, .fileData content true], { st with position := content.length })
        else ([], st)
  else if obs.currSize < obs.prevSize then
    match obs.readResult with
    | none => ([.truncatedMarker], { st with position := 0 })
    | some content =>
      if content.isEmpty then ([.truncatedMarker], { st with position := 0 })
      else ([.truncatedMarker, .fileData content true], { st with position := content.length })
  else ([], st)

/-- Retry ceiling of `watchLogFile` (`const maxRetries = 10`). -/
def maxRetries : Nat := 10

/-- Result of running the `startWatching` retry loop of `watchLogFile`:
the `setTimeout` delays it scheduled (in ms), the events it sent, the final
closure state, and whether a `fsSync.watchFile` watcher was installed. -/
structure RetryOutcome where
  delays : List Nat
  events : List TailEvent
  finalState : TailState
  watcherEstablished : Bool
  deriving DecidableEq, Repr

/-- The `startWatching` retry loop of `watchLogFile` (`LOG_IMPROVEMENTS.md`
lines 1509-1522 and 1594-1595): while the file is absent and
`retryCount < maxRetries`, increment `retryCount` and re-schedule itself
after `1000 * retryCount` ms; once `retryCount` reaches the ceiling, send the
not-found notice and stop.  `existsAt k` tells whether the file exists at the
attempt made with `retryCount = k`; `fuel` bounds the recursion (any
`fuel > maxRetries` is enough to run the loop to completion from a fresh
state). -/
def startWatching (existsAt : Nat → Bool) : Nat → TailState → RetryOutcome
  | 0, st => ⟨[], [], st, false⟩
  | fuel + 1, st =>
    if st.isClosed then ⟨[], [], st, false⟩
    else if existsAt st.retryCount then ⟨[], [], { st with retryCount := 0 }, true⟩
    else if st.retryCount < maxRetries then
      let stNext := { st with retryCount := st.retryCount + 1 }
      let rest := startWatching existsAt fuel stNext
      ⟨1000 * stNext.retryCount :: rest.delays, rest.events, rest.finalState,
        rest.watcherEstablished⟩
    else ⟨[], [.notFoundNotice], st, false⟩

/-- C1: for an open tail session whose recorded offset equals the length of
the previously read content, a poll that observes the size increase from the
old content `prev` to `prev ++ suffix` emits exactly one new-content event
carrying `suffix` (never the full file) and advances the offset to the new
content length. -/
theorem tail_growth_emits_only_new_suffix
    (st : TailState) (obs : PollObs) (prev suffix : List Char)
    (hopen : st.isClosed = false)
    (hexists : obs.stillExists = true)
    (hread : obs.readResult = some (prev ++ suffix))
    (hpos : st.position = prev.length)
    (hprev : obs.prevSize = prev.length)
    (hcurr : obs.currSize = (prev ++ suffix).length)
    (hgrow : obs.prevSize < obs.currSize) :
    watchFileTick st obs =
      ([.fileData suffix true], { st with position := (prev ++ suffix).length }) := by
  have hlen : prev.length < (prev ++ suffix).length := by
    rw [← hprev, ← hcurr]; exact hgrow
  have hsuffix : suffix ≠ [] := by
    intro h
    rw [h, List.append_nil] at hlen
    exact lt_irrefl _ hlen
  have hdrop : (prev ++ suffix).drop prev.length = suffix := List.drop_left prev suffix
  have hne : ((prev ++ suffix).drop st.position).isEmpty = false := by
    rw [hpos, hdrop]
    cases suffix with
    | nil => exact absurd rfl hsuffix
    | cons a l => rfl
  simp only [watchFileTick, hopen, hexists, hread, hpos]
  rw [if_neg (by simp), if_pos (Or.inl (by rw [hprev, hcurr] at hgrow ⊢; exact hgrow))]
  simp only [reduceCtorEq, if_neg]
  rw [if_neg (by simp), if_pos hlen]
  have hse : suffix.isEmpty = false := by
    cases suffix with
    | nil => exact absurd rfl hsuffix
    | cons a l => rfl
  simp only [hdrop, hne, hse, Bool.false_eq_true, if_false]

/-- Concrete run of C1: content grows from the single character A to AB and
only B is emitted. -/
theorem tail_growth_witness :
    watchFileTick ⟨1, 0, false⟩ ⟨1, 2, true, some (['A'] ++ ['B'])⟩ =
      ([.fileData ['B'] true], ⟨2, 0, false⟩) :=
  tail_growth_emits_only_new_suffix ⟨1, 0, false⟩ ⟨1, 2, true, some (['A'] ++ ['B'])⟩
    ['A'] ['B'] rfl rfl rfl rfl rfl rfl (by decide)

/-- C2: when a poll observes the file size decrease, the watcher emits the
truncation marker followed by the file's full current content (when that
content is nonempty; an empty re-read emits the marker alone), resets the
offset to 0 in between, and ends with the offset equal to the new content's
length. -/
theorem tail_truncation_emits_marker_and_content
    (st : TailState) (obs : PollObs) (content : List Char)
    (hopen : st.isClosed = false)
    (hread : obs.readResult = some content)
    (hshrink : obs.currSize < obs.prevSize) :
    watchFileTick st obs =
      (.truncatedMarker :: (if content.isEmpty then [] else [.fileData content true]),
       { st with position := content.length }) := by
  have hnotgrow : ¬(obs.prevSize < obs.currSize ∨ (obs.prevSize = 0 ∧ 0 < obs.currSize)) := by
    rintro (h | ⟨h0, hpos⟩)
    · exact absurd hshrink (not_lt.mpr (le_of_lt h))
    · rw [h0] at hshrink; exact absurd hshrink (Nat.not_lt_zero _)
  simp only [watchFileTick, hopen, Bool.false_eq_true, if_false, hnotgrow, hshrink, if_true,
    hread]
  cases hc : content.isEmpty with
  | true =>
    have : content = [] := List.isEmpty_iff.mp hc
    subst this
    simp
  | false =>
    simp

/-- Concrete run of C2: a file shrinks from 5 bytes to the content XY; the
watcher emits the marker then XY and ends at offset 2. -/
theorem tail_truncation_witness :
    watchFileTick ⟨5, 0, false⟩ ⟨5, 2, true, some ['X', 'Y']⟩ =
      ([.truncatedMarker, .fileData ['X', 'Y'] true], ⟨2, 0, false⟩) := by
  have h := tail_truncation_emits_marker_and_content ⟨5, 0, false⟩ ⟨5, 2, true, some ['X', 'Y']⟩
    ['X', 'Y'] rfl rfl (by decide)
  simpa using h

/-- C7 counterexample: with the file absent at every attempt, the retry loop
schedules the linearly increasing delays 1000..10000 ms, then emits the
terminal not-found notice - but it does NOT close the session: the final
state still has `isClosed = false` and no cleanup is invoked, so the session
stays open until the subscriber disconnects.  This refutes the claim's final
clause "and closes the session". -/
theorem retry_ceiling_does_not_close_session :
    (startWatching (fun _ => false) 11 ⟨0, 0, false⟩).events = [.notFoundNotice] ∧
    (startWatching (fun _ => false) 11 ⟨0, 0, false⟩).finalState.isClosed = false ∧
    (startWatching (fun _ => false) 11 ⟨0, 0, false⟩).delays =
      [1000, 2000, 3000, 4000, 5000, 6000, 7000, 8000, 9000, 10000] := by
  refine ⟨?_, ?_, ?_⟩ <;> rfl

/-- C7 amended: for a tail session whose watched file is absent at every
attempt, the watcher retries with linearly increasing backoff
(`1000 * retryCount` ms, i.e. 1000, 2000, ..., 10000) up to the ceiling of 10
attempts, then emits the terminal not-found notice and stops retrying; the
session itself is left open (`isClosed` stays false) rather than closed. -/
theorem retry_ceiling_emits_notice_and_stops
    (existsAt : Nat → Bool) (habsent : ∀ k, existsAt k = false) :
    startWatching existsAt 11 ⟨0, 0, false⟩ =
      ⟨[1000, 2000, 3000, 4000, 5000, 6000, 7000, 8000, 9000, 10000],
       [.notFoundNotice], ⟨0, 10, false⟩, false⟩ := by
  simp [startWatching, habsent, maxRetries]

/-- Concrete run of the amended C7 statement. -/
theorem retry_ceiling_witness :
    startWatching (fun _ => false) 11 ⟨0, 0, false⟩ =
      ⟨[1000, 2000, 3000, 4000, 5000, 6000, 7000, 8000, 9000, 10000],
       [.notFoundNotice], ⟨0, 10, false⟩, false⟩ :=
  retry_ceiling_emits_notice_and_stops (fun _ => false) (fun _ => rfl)

/-! ## Process discovery (`processCache`, `findRunningAgents`, `verifyProcesses`,
`getExternalAgentPid`) -/

/-- One record of `findRunningAgents`'s deduplicated output: its pid and the
classification flags computed in the second categorization pass. -/
structure AgentRec where
  pid : Nat
  isMainProcess : Bool
  isSubProcess : Bool
  isExternal : Bool
  deriving DecidableEq, Repr

/-- The module-level `processCache` object: `data` is `null` or the last
snapshot, `timestamp` its capture time (ms). -/
structure ProcessCache where
  data : Option (List AgentRec)
  timestamp : Nat
  deriving DecidableEq, Repr

/-- The cache TTL (`ttl: 5000`). -/
def processCacheTtl : Nat := 5000

/-- The state `invalidateProcessCache()` leaves behind
(`data = null`, `timestamp = 0`). -/
def invalidatedProcessCache : ProcessCache := ⟨none, 0⟩

/-- Everything one `findRunningAgents` call produces: the returned list, the
cache afterwards, whether OS listing commands were issued, and whether the
failure branch logged an error. -/
structure EnumOutcome where
  result : List AgentRec
  cache : ProcessCache
  queriedOS : Bool
  loggedError : Bool
  deriving DecidableEq, Repr

/-- `findRunningAgents(forceRefresh)` (`LOG_IMPROVEMENTS.md` lines 670-790):
serve the cached snapshot when not forced, the cache holds data and is
younger than the TTL; otherwise run the OS enumeration.  `osListing` is the
outcome of the enumeration commands (`none` models the catch branch where
they failed): on success the cache is refreshed, on failure the code logs
the error and returns `processCache.data || []` with the cache untouched. -/
def findRunningAgents (forceRefresh : Bool) (now : Nat) (cache : ProcessCache)
    (osListing : Option (List AgentRec)) : EnumOutcome :=
  if forceRefresh = false ∧ cache.data.isSome ∧ now - cache.timestamp < processCacheTtl then
    ⟨cache.data.getD [], cache, false, false⟩
  else
    match osListing with
    | some procs => ⟨procs, ⟨some procs, now⟩, true, false⟩
    | none => ⟨cache.data.getD [], cache, true, true⟩

/-- `getExternalAgentPid()` (`LOG_IMPROVEMENTS.md` lines 855-874) applied to
an enumeration result: drop non-verified records (`verifyProcesses`, an OS
liveness plus re-classification check, modeled as the predicate `verify`),
then prefer main processes, then external ones, then any verified record. -/
def getExternalAgentPid (agents : List AgentRec) (verify : AgentRec → Bool) : Option Nat :=
  match agents with
  | [] => none
  | _ :: _ =>
    match agents.filter verify with
    | [] => none
    | v :: vs =>
      match (v :: vs).filter (·.isMainProcess) with
      | a :: _ => some a.pid
      | [] =>
        match (v :: vs).filter (·.isExternal) with
        | a :: _ => some a.pid
        | [] => some v.pid

/-! ## Lifecycle controller (`/api/agent/start`, `/api/agent/stop`,
the spawn exit handler) -/

/-- The in-memory handle for the managed child process (`agentProcess`).
`token` identifies the spawned OS process (its pid); `killed` is Node's
`ChildProcess.killed` flag. -/
structure ManagedHandle where
  token : Nat
  killed : Bool
  deriving DecidableEq, Repr

/-- A process record as the enumeration sees it before the external/managed
tagging pass. -/
structure RawAgent where
  pid : Nat
  isMainProcess : Bool
  isSubProcess : Bool
  deriving DecidableEq, Repr

/-- The tagging `isExternal = !agentProcess || proc.pid !== agentProcess.pid`
performed while deduplicating in `findRunningAgents`. -/
def tagExternal (managed : Option ManagedHandle) (p : RawAgent) : AgentRec :=
  { pid := p.pid, isMainProcess := p.isMainProcess, isSubProcess := p.isSubProcess,
    isExternal := match managed with
      | none => true
      | some h => decide (p.pid ≠ h.token) }

/-- The server-side mutable state the lifecycle endpoints touch:
`agentProcess`, a token counter standing for the OS pid allocator (tokens are
handed out in spawn order), the SIGKILL timers scheduled by `stop`, and the
process cache. -/
structure ServerState where
  agentProcess : Option ManagedHandle
  nextToken : Nat
  pendingKills : List Nat
  processCache : ProcessCache
  deriving DecidableEq, Repr

/-- The fresh server state at module load. -/
def initialServerState : ServerState := ⟨none, 0, [], ⟨none, 0⟩⟩

/-- `agentProcess && !agentProcess.killed`. -/
def managedLive (st : ServerState) : Bool :=
  match st.agentProcess with
  | some h => !h.killed
  | none => false

/-- Response of `/api/agent/start`. -/
inductive StartOutcome where
  | alreadyManaged
  | alreadyExternal (pid : Nat)
  | started (pid : Nat)
  deriving DecidableEq, Repr

/-- `/api/agent/start` (`LOG_IMPROVEMENTS.md` lines 1192-1258): fail fast if
a live managed process exists; invalidate the cache and re-enumerate
(`osProcs` is the process table the forced enumeration reports, tagged
against the current `agentProcess`); fail with the conflicting pid if
`getExternalAgentPid` finds one; otherwise spawn, install the exit handler,
and invalidate the cache again. -/
def startAgent (st : ServerState) (osProcs : List RawAgent) (verify : AgentRec → Bool) :
    ServerState × StartOutcome :=
  if managedLive st then (st, .alreadyManaged)
  else
    let cacheCleared := { st with processCache := invalidatedProcessCache }
    let tagged := osProcs.map (tagExternal st.agentProcess)
    match getExternalAgentPid tagged verify with
    | some pid => (cacheCleared, .alreadyExternal pid)
    | none =>
      let h : ManagedHandle := ⟨st.nextToken, false⟩
      ({ cacheCleared with agentProcess := some h,
                           nextToken := st.nextToken + 1,
                           processCache := invalidatedProcessCache },
       .started h.token)

/-- Response of `/api/agent/stop` without an explicit external pid. -/
inductive StopOutcome where
  | noManaged
  | stopSignalSent (token : Nat)
  deriving DecidableEq, Repr

/-- `/api/agent/stop` with no `externalPid` in the body (`LOG_IMPROVEMENTS.md`
lines 1261-1266 and 1312-1332): invalidate the cache; 400 if no live managed
process; otherwise SIGTERM the managed process, clear `agentProcess`
immediately, and schedule a SIGKILL of the old handle after the 5 s grace
period (recorded in `pendingKills`). -/
def stopAgent (st : ServerState) : ServerState × StopOutcome :=
  let cacheCleared := { st with processCache := invalidatedProcessCache }
  match st.agentProcess with
  | none => (cacheCleared, .noManaged)
  | some h =>
    if h.killed then (cacheCleared, .noManaged)
    else
      ({ cacheCleared with agentProcess := none,
                           pendingKills := cacheCleared.pendingKills ++ [h.token] },
       .stopSignalSent h.token)

/-- The events that mutate the lifecycle state: a start request (with the
process table the forced enumeration would report), a stop request for the
managed process, and the `exit` event of a spawned child carrying its
identity. -/
inductive ServerEvent where
  | startRequest (osProcs : List RawAgent) (verify : AgentRec → Bool)
  | stopRequest
  | processExit (token : Nat)

/-- One state transition.  `processExit` is the handler installed at spawn
(`LOG_IMPROVEMENTS.md` lines 1240-1248): it captures `currentProcess` and
clears `agentProcess` only when the reference still is that very process,
then invalidates the cache. -/
def serverStep (st : ServerState) : ServerEvent → ServerState
  | .startRequest osProcs verify => (startAgent st osProcs verify).1
  | .stopRequest => (stopAgent st).1
  | .processExit t =>
    let cleared :=
      match st.agentProcess with
      | some h => if h.token = t then { st with agentProcess := none } else st
      | none => st
    { cleared with processCache := invalidatedProcessCache }

/-- Run a list of events from a state. -/
def serverRun (st : ServerState) : List ServerEvent → ServerState
  | [] => st
  | e :: es => serverRun (serverStep st e) es

/-- The C10 invariant: a non-null managed handle is the most recently
spawned one (tokens are spawned in order, so the latest has `nextToken - 1`). -/
def handleIsLatest (st : ServerState) : Prop :=
  ∀ h, st.agentProcess = some h → h.token + 1 = st.nextToken

theorem handleIsLatest_step (st : ServerState) (e : ServerEvent)
    (hinv : handleIsLatest st) : handleIsLatest (serverStep st e) := by
  intro h hmem
  cases e with
  | startRequest osProcs verify =>
    by_cases hl : managedLive st = true
    · simp only [serverStep, startAgent, hl, if_true] at hmem ⊢
      exact hinv h hmem
    · rcases hx : getExternalAgentPid (osProcs.map (tagExternal st.agentProcess)) verify with
        _ | pid
      · simp only [serverStep, startAgent, hl, if_false, hx] at hmem ⊢
        obtain rfl : (⟨st.nextToken, false⟩ : ManagedHandle) = h := Option.some.inj hmem
        rfl
      · simp only [serverStep, startAgent, hl, if_false, hx] at hmem ⊢
        exact hinv h hmem
  | stopRequest =>
    rcases hm : st.agentProcess with _ | h0
    · simp only [serverStep, stopAgent, hm] at hmem ⊢
      exact Option.noConfusion hmem
    · by_cases hk : h0.killed = true
      · simp only [serverStep, stopAgent, hm, hk, if_true] at hmem ⊢
        obtain rfl : h0 = h := Option.some.inj hmem
        exact hinv _ hm
      · simp only [serverStep, stopAgent, hm, hk, if_false] at hmem ⊢
        exact Option.noConfusion hmem
  | processExit t =>
    rcases hm : st.agentProcess with _ | h0
    · simp only [serverStep, hm] at hmem ⊢
      exact Option.noConfusion hmem
    · by_cases ht : h0.token = t
      · simp only [serverStep, hm, ht, if_true] at hmem ⊢
        exact Option.noConfusion hmem
      · simp only [serverStep, hm, ht, if_false] at hmem ⊢
        obtain rfl : h0 = h := Option.some.inj hmem
        exact hinv _ hm

theorem handleIsLatest_run (evs : List ServerEvent) :
    ∀ st : ServerState, handleIsLatest st → handleIsLatest (serverRun st evs) := by
  induction evs with
  | nil => intro st h; exact h
  | cons e es ih =>
    intro st h
    exact ih (serverStep st e) (handleIsLatest_step st e h)

/-- C10: whenever the managed-process handle is non-null in a reachable
state, it refers to the most recently spawned managed process; an exit event
leaves the handle untouched when it refers to a different process and clears
it exactly when it refers to that very process.  In particular an old
process exiting after a stop-then-restart never clears the new handle. -/
theorem managed_handle_is_latest_spawn :
    (∀ evs : List ServerEvent, ∀ h : ManagedHandle,
        (serverRun initialServerState evs).agentProcess = some h →
        h.token + 1 = (serverRun initialServerState evs).nextToken) ∧
    (∀ (st : ServerState) (t : Nat) (h : ManagedHandle),
        st.agentProcess = some h → h.token ≠ t →
        (serverStep st (.processExit t)).agentProcess = some h) ∧
    (∀ (st : ServerState) (t : Nat) (h : ManagedHandle),
        st.agentProcess = some h → h.token = t →
        (serverStep st (.processExit t)).agentProcess = none) := by
  refine ⟨?_, ?_, ?_⟩
  · intro evs h hmem
    exact handleIsLatest_run evs initialServerState (by intro h0 hm; cases hm) h hmem
  · intro st t h hm ht
    simp only [serverStep, hm, if_neg ht]
  · intro st t h hm ht
    simp only [serverStep, hm, if_pos ht]

/-- A concrete trace for C10: start, stop, restart, then the old process
(token 0) exits; the handle keeps referring to the new process (token 1) and
the invariant holds. -/
def demoEvents : List ServerEvent :=
  [.startRequest [] (fun _ => false), .stopRequest,
   .startRequest [] (fun _ => false), .processExit 0]

/-- A state with the new process (token 1) managed while the old one
(token 0) drains toward forced kill. -/
def demoState : ServerState := ⟨some ⟨1, false⟩, 2, [0], ⟨none, 0⟩⟩

/-- Concrete run of C10: after stop-then-restart and the old exit event the
handle has token 1 and the invariant gives `1 + 1 = nextToken`; stepping the
demo state with a non-matching exit keeps the handle, with the matching exit
clears it. -/
theorem managed_handle_witness :
    1 + 1 = (serverRun initialServerState demoEvents).nextToken ∧
    (serverStep demoState (.processExit 0)).agentProcess = some ⟨1, false⟩ ∧
    (serverStep demoState (.processExit 1)).agentProcess = none := by
  refine ⟨managed_handle_is_latest_spawn.1 demoEvents ⟨1, false⟩ rfl,
    managed_handle_is_latest_spawn.2.1 demoState 0 ⟨1, false⟩ rfl (by decide),
    managed_handle_is_latest_spawn.2.2 demoState 1 ⟨1, false⟩ rfl rfl⟩

theorem getExternalAgentPid_eq_none (agents : List AgentRec) (verify : AgentRec → Bool)
    (h : agents.filter verify = []) : getExternalAgentPid agents verify = none := by
  cases agents with
  | nil => rfl
  | cons a l => simp only [getExternalAgentPid, h]

theorem getExternalAgentPid_isSome (agents : List AgentRec) (verify : AgentRec → Bool)
    (h : agents.filter verify ≠ []) :
    ∃ pid, getExternalAgentPid agents verify = some pid := by
  cases agents with
  | nil => exact absurd rfl h
  | cons a l =>
    rcases hf : (a :: l).filter verify with _ | ⟨v, vs⟩
    · exact absurd hf h
    · simp only [getExternalAgentPid, hf]
      rcases hmain : (v :: vs).filter (·.isMainProcess) with _ | ⟨m, ms⟩
      · rcases hext : (v :: vs).filter (·.isExternal) with _ | ⟨e, es⟩
        · exact ⟨v.pid, by rw [hmain, hext]⟩
        · exact ⟨e.pid, by rw [hmain, hext]⟩
      · exact ⟨m.pid, by rw [hmain]⟩

theorem getExternalAgentPid_mem (agents : List AgentRec) (verify : AgentRec → Bool) (pid : Nat)
    (h : getExternalAgentPid agents verify = some pid) :
    ∃ a ∈ agents, verify a = true ∧ a.pid = pid := by
  cases agents with
  | nil => exact Option.noConfusion h
  | cons a l =>
    rcases hf : (a :: l).filter verify with _ | ⟨v, vs⟩
    · simp only [getExternalAgentPid, hf] at h
      exact Option.noConfusion h
    · simp only [getExternalAgentPid, hf] at h
      have hsub : ∀ x, x ∈ v :: vs → x ∈ a :: l ∧ verify x = true := by
        intro x hx
        rw [← hf] at hx
        exact ⟨List.mem_of_mem_filter hx, List.of_mem_filter hx⟩
      rcases hmain : (v :: vs).filter (·.isMainProcess) with _ | ⟨m, ms⟩
      · rcases hext : (v :: vs).filter (·.isExternal) with _ | ⟨e, es⟩
        · rw [hmain, hext] at h
          obtain rfl : v.pid = pid := Option.some.inj h
          obtain ⟨hmem, hv⟩ := hsub v (List.mem_cons_self v vs)
          exact ⟨v, hmem, hv, rfl⟩
        · rw [hmain, hext] at h
          obtain rfl : e.pid = pid := Option.some.inj h
          have he : e ∈ (v :: vs).filter (·.isExternal) := by
            rw [hext]; exact List.mem_cons_self e es
          obtain ⟨hmem, hv⟩ := hsub e (List.mem_of_mem_filter he)
          exact ⟨e, hmem, hv, rfl⟩
      · rw [hmain] at h
        obtain rfl : m.pid = pid := Option.some.inj h
        have hm : m ∈ (v :: vs).filter (·.isMainProcess) := by
          rw [hmain]; exact List.mem_cons_self m ms
        obtain ⟨hmem, hv⟩ := hsub m (List.mem_of_mem_filter hm)
        exact ⟨m, hmem, hv, rfl⟩

/-- C4: when no managed process is tracked and the forced-refreshed
enumeration (cache invalidated before the check) reports at least one
verified agent process, `start` fails with the already-running error that
carries a conflicting pid of an enumerated external record, and no new
process is spawned (the managed reference stays `none` and no pid is
allocated). -/
theorem start_fails_with_external_pid (st : ServerState) (osProcs : List RawAgent)
    (verify : AgentRec → Bool)
    (hnone : st.agentProcess = none)
    (hfound : (osProcs.map (tagExternal none)).filter verify ≠ []) :
    ∃ pid,
      (startAgent st osProcs verify).2 = .alreadyExternal pid ∧
      (∃ p ∈ osProcs, verify (tagExternal none p) = true ∧ p.pid = pid ∧
        (tagExternal none p).isExternal = true) ∧
      (startAgent st osProcs verify).1.agentProcess = none ∧
      (startAgent st osProcs verify).1.nextToken = st.nextToken := by
  have hlive : managedLive st = false := by
    simp only [managedLive, hnone]
  obtain ⟨pid, hx⟩ := getExternalAgentPid_isSome (osProcs.map (tagExternal none)) verify hfound
  obtain ⟨a, hamem, haverify, hapid⟩ :=
    getExternalAgentPid_mem (osProcs.map (tagExternal none)) verify pid hx
  obtain ⟨p, hpmem, rfl⟩ := List.mem_map.mp hamem
  have heq : startAgent st osProcs verify =
      ({ st with processCache := invalidatedProcessCache }, .alreadyExternal pid) := by
    simp only [startAgent, hlive, Bool.false_eq_true, if_false, hnone, hx]
  rw [heq]
  exact ⟨pid, rfl, ⟨p, hpmem, haverify, hapid, rfl⟩, hnone, rfl⟩

/-- Concrete run of C4: with no managed process and an enumeration showing
one external agent, `start` reports the conflict and spawns nothing. -/
theorem start_fails_with_external_pid_witness :
    (startAgent initialServerState [⟨42, true, false⟩] (fun _ => true)).1.agentProcess = none ∧
    (startAgent initialServerState [⟨42, true, false⟩] (fun _ => true)).1.nextToken = 0 := by
  obtain ⟨pid, _, _, h3, h4⟩ := start_fails_with_external_pid initialServerState
    [⟨42, true, false⟩] (fun _ => true) rfl (by decide)
  exact ⟨h3, h4⟩

/-- C3 counterexample: `stop` on the managed process with pid 5 clears the
reference immediately, but while pid 5 is still alive the immediately
subsequent `start` does NOT succeed: the forced re-enumeration still finds
the SIGTERM'd process (here the OS table still lists pid 5 as a running
main agent process and the liveness-and-classification verification passes,
since the process has not yet exited), so `start` returns the
already-running-externally error carrying pid 5 instead of spawning.  This
refutes the claim's clause that the subsequent `start()` succeeds even while
the old process is still alive and draining toward forced kill. -/
theorem restart_blocked_while_old_process_alive :
    (stopAgent ⟨some ⟨5, false⟩, 6, [], ⟨none, 0⟩⟩).1.agentProcess = none ∧
    (startAgent (stopAgent ⟨some ⟨5, false⟩, 6, [], ⟨none, 0⟩⟩).1 [⟨5, true, false⟩]
        (fun _ => true)).2 = .alreadyExternal 5 ∧
    (startAgent (stopAgent ⟨some ⟨5, false⟩, 6, [], ⟨none, 0⟩⟩).1 [⟨5, true, false⟩]
        (fun _ => true)).1.agentProcess = none :=
  ⟨rfl, rfl, rfl⟩

/-- C3 amended: `stop` without an explicit external pid, invoked on a live
managed process, reports the stop signal, clears the managed-process
reference immediately (before the 5 s grace period: the forced kill of the
old handle is merely scheduled, recorded in `pendingKills`), so the
managed-process check no longer blocks a new `start`; but an immediately
subsequent `start` succeeds only once the forced re-enumeration no longer
reports any verified agent process - while the old (or any other) agent
process is still alive and enumerable, `start` fails with the
already-running-externally error instead. -/
theorem stop_clears_reference_and_restart_gated
    (st : ServerState) (h : ManagedHandle) (osProcs : List RawAgent) (verify : AgentRec → Bool)
    (hm : st.agentProcess = some h) (hk : h.killed = false) :
    (stopAgent st).2 = .stopSignalSent h.token ∧
    (stopAgent st).1.agentProcess = none ∧
    h.token ∈ (stopAgent st).1.pendingKills ∧
    ((osProcs.map (tagExternal none)).filter verify ≠ [] →
      ∃ pid, (startAgent (stopAgent st).1 osProcs verify).2 = .alreadyExternal pid ∧
        (startAgent (stopAgent st).1 osProcs verify).1.agentProcess = none) ∧
    ((osProcs.map (tagExternal none)).filter verify = [] →
      (startAgent (stopAgent st).1 osProcs verify).2 = .started st.nextToken ∧
      (startAgent (stopAgent st).1 osProcs verify).1.agentProcess =
        some ⟨st.nextToken, false⟩) := by
  have hstop : stopAgent st =
      ({ st with agentProcess := none,
                 pendingKills := st.pendingKills ++ [h.token],
                 processCache := invalidatedProcessCache },
       .stopSignalSent h.token) := by
    simp only [stopAgent, hm, hk, Bool.false_eq_true, if_false]
  rw [hstop]
  refine ⟨rfl, rfl, by simp, ?_, ?_⟩
  · intro hbusy
    obtain ⟨pid, hx⟩ := getExternalAgentPid_isSome (osProcs.map (tagExternal none)) verify hbusy
    refine ⟨pid, ?_, ?_⟩ <;>
      simp only [startAgent, managedLive, Bool.false_eq_true, if_false, hx]
  · intro hquiet
    have hx : getExternalAgentPid (osProcs.map (tagExternal none)) verify = none :=
      getExternalAgentPid_eq_none _ _ hquiet
    constructor <;>
      simp only [startAgent, managedLive, Bool.false_eq_true, if_false, hx]

/-- Concrete run of the amended C3 statement: stop the managed process with
pid 5 (the reference is cleared, pid 5 is pending its forced kill); while
the re-enumeration still reports pid 5 the restart is refused, and once the
re-enumeration reports nothing the restart succeeds and spawns pid 6. -/
theorem stop_then_restart_witness :
    (stopAgent ⟨some ⟨5, false⟩, 6, [], ⟨none, 0⟩⟩).1.agentProcess = none ∧
    5 ∈ (stopAgent ⟨some ⟨5, false⟩, 6, [], ⟨none, 0⟩⟩).1.pendingKills ∧
    (∃ pid, (startAgent (stopAgent ⟨some ⟨5, false⟩, 6, [], ⟨none, 0⟩⟩).1 [⟨5, true, false⟩]
        (fun _ => true)).2 = .alreadyExternal pid) ∧
    (startAgent (stopAgent ⟨some ⟨5, false⟩, 6, [], ⟨none, 0⟩⟩).1 [] (fun _ => true)).2 =
      .started 6 := by
  obtain ⟨_, h2, h3, hbusy, _⟩ := stop_clears_reference_and_restart_gated
    ⟨some ⟨5, false⟩, 6, [], ⟨none, 0⟩⟩ ⟨5, false⟩ [⟨5, true, false⟩] (fun _ => true) rfl rfl
  obtain ⟨_, _, _, _, hquiet⟩ := stop_clears_reference_and_restart_gated
    ⟨some ⟨5, false⟩, 6, [], ⟨none, 0⟩⟩ ⟨5, false⟩ [] (fun _ => true) rfl rfl
  obtain ⟨pid, hpid, _⟩ := hbusy (by decide)
  exact ⟨h2, h3, ⟨pid, hpid⟩, (hquiet rfl).1⟩

/-- C5 counterexample: when the enumeration commands fail and no prior
successful snapshot exists (`processCache.data = null`), `findRunningAgents`
returns precisely the empty list - not a last-good snapshot, which does not
exist - refuting the claim that an empty set is never returned in this case.
The failure is still logged and nothing is thrown. -/
theorem enumeration_failure_empty_cache_returns_empty :
    (findRunningAgents false 10000 ⟨none, 0⟩ none).result = [] ∧
    (findRunningAgents false 10000 ⟨none, 0⟩ none).loggedError = true :=
  ⟨rfl, rfl⟩

/-- C5 amended: when the enumeration commands fail, `findRunningAgents`
returns the last good cached snapshot when one exists and the empty list
otherwise, leaves the cache untouched, and logs the failure whenever the OS
query was actually attempted; the failure never propagates (the function is
total and returns normally on every input). -/
theorem enumeration_failure_returns_last_good (force : Bool) (now : Nat)
    (cache : ProcessCache) :
    (findRunningAgents force now cache none).result = cache.data.getD [] ∧
    (findRunningAgents force now cache none).cache = cache ∧
    ((findRunningAgents force now cache none).queriedOS = true →
      (findRunningAgents force now cache none).loggedError = true) := by
  by_cases hc : force = false ∧ cache.data.isSome ∧ now - cache.timestamp < processCacheTtl
  · simp [findRunningAgents, if_pos hc]
  · simp [findRunningAgents, if_neg hc]

/-- Concrete run of the amended C5 statement: a forced call whose commands
fail serves the cached record of pid 9 and logs the error. -/
theorem enumeration_failure_witness :
    (findRunningAgents true 7000 ⟨some [⟨9, true, false, true⟩], 5000⟩ none).result =
      [⟨9, true, false, true⟩] ∧
    (findRunningAgents true 7000 ⟨some [⟨9, true, false, true⟩], 5000⟩ none).loggedError =
      true := by
  have h := enumeration_failure_returns_last_good true 7000 ⟨some [⟨9, true, false, true⟩], 5000⟩
  exact ⟨h.1, h.2.2 rfl⟩

/-- C6: a second enumeration call without `force_refresh`, made within the
cache TTL (5000 ms) of a first call that actually issued (successful) OS
queries, with no cache invalidation in between, returns the identical
snapshot and issues no OS queries. -/
theorem enumeration_idempotent_within_ttl
    (force1 : Bool) (t1 t2 : Nat) (cache0 : ProcessCache) (os1 : List AgentRec)
    (os2 : Option (List AgentRec))
    (hq : (findRunningAgents force1 t1 cache0 (some os1)).queriedOS = true)
    (httl : t2 - t1 < processCacheTtl) :
    (findRunningAgents false t2 (findRunningAgents force1 t1 cache0 (some os1)).cache
        os2).result =
      (findRunningAgents force1 t1 cache0 (some os1)).result ∧
    (findRunningAgents false t2 (findRunningAgents force1 t1 cache0 (some os1)).cache
        os2).queriedOS = false := by
  by_cases hc : force1 = false ∧ cache0.data.isSome ∧ t1 - cache0.timestamp < processCacheTtl
  · exfalso
    simp only [findRunningAgents, if_pos hc] at hq
    exact Bool.noConfusion hq
  · have h1 : findRunningAgents force1 t1 cache0 (some os1) =
        ⟨os1, ⟨some os1, t1⟩, true, false⟩ := by
      simp only [findRunningAgents, if_neg hc]
    rw [h1]
    constructor <;> simp [findRunningAgents, httl]

/-- Concrete run of C6: a forced refresh at t=1000 stores the pid-7 record;
an unforced call at t=4000 serves the identical snapshot with no OS query. -/
theorem enumeration_idempotent_witness :
    (findRunningAgents false 4000
        (findRunningAgents true 1000 ⟨none, 0⟩ (some [⟨7, true, false, true⟩])).cache
        (some [])).result = [⟨7, true, false, true⟩] ∧
    (findRunningAgents false 4000
        (findRunningAgents true 1000 ⟨none, 0⟩ (some [⟨7, true, false, true⟩])).cache
        (some [])).queriedOS = false :=
  enumeration_idempotent_within_ttl true 1000 4000 ⟨none, 0⟩ [⟨7, true, false, true⟩]
    (some []) rfl (by decide)

/-! ## Event broadcaster subscriptions (`/api/stream` and
`/api/logs/:filename/stream`) -/

/-- What one streaming endpoint installs for a new subscriber connection:
the `setInterval` heartbeat period if any, whether the `agentEvents`
log/start/exit listeners are attached, whether an initial `status` event is
sent, and the log file handed to `watchLogFile` (if any).  Filenames are
abstracted to identifiers throughout the registry model. -/
structure SubscriptionSetup where
  heartbeatIntervalMs : Option Nat
  relaysAgentEvents : Bool
  sendsInitialStatus : Bool
  watchedFile : Option Nat
  deriving DecidableEq, Repr

/-- The subscription set up by `/api/stream` (`LOG_IMPROVEMENTS.md` lines
1612-1780): a 30000 ms `setInterval` sending ping events, the three
`agentEvents` listeners, an initial status event, and possibly a tail
watcher on the chosen active log file. -/
def apiStreamSetup (watched : Option Nat) : SubscriptionSetup :=
  { heartbeatIntervalMs := some 30000, relaysAgentEvents := true,
    sendsInitialStatus := true, watchedFile := watched }

/-- The subscription set up by `/api/logs/:filename/stream`
(`LOG_IMPROVEMENTS.md` lines 1783-1796): after the SSE headers it only calls
`watchLogFile`; no `setInterval` is created and no `agentEvents` listeners
are attached. -/
def apiLogFileStreamSetup (filename : Nat) : SubscriptionSetup :=
  { heartbeatIntervalMs := none, relaysAgentEvents := false,
    sendsInitialStatus := false, watchedFile := some filename }

/-- Number of ping events a subscription has received by time `t` (ms after
setup): a `setInterval` with period `i` has fired at `i, 2i, ...`, hence
`t / i` times; a subscription with no heartbeat timer receives none. -/
def pingCount (sub : SubscriptionSetup) (t : Nat) : Nat :=
  match sub.heartbeatIntervalMs with
  | some i => t / i
  | none => 0

/-- C8 counterexample: a subscription opened on a specific named log file
receives no ping during its first heartbeat interval (nor ever), because
`/api/logs/:filename/stream` installs no heartbeat timer at all.  This
refutes the claim that every open streaming subscription - including one
opened on a specific named log file - receives at least one ping per
interval. -/
theorem named_log_stream_gets_no_ping :
    pingCount (apiLogFileStreamSetup 1) 30000 - pingCount (apiLogFileStreamSetup 1) 0 = 0 ∧
    (apiLogFileStreamSetup 1).heartbeatIntervalMs = none :=
  ⟨rfl, rfl⟩

/-- C8 amended: subscriptions opened on the main `/api/stream` endpoint
receive exactly one ping per 30 s heartbeat interval even with no log
activity, but subscriptions opened on a specific named log file via
`/api/logs/:filename/stream` install no heartbeat timer and receive no
pings. -/
theorem heartbeat_per_interval_on_main_stream :
    (∀ (watched : Option Nat) (k : Nat),
      pingCount (apiStreamSetup watched) (30000 * (k + 1)) -
        pingCount (apiStreamSetup watched) (30000 * k) = 1) ∧
    (∀ (filename t : Nat), pingCount (apiLogFileStreamSetup filename) t = 0) := by
  constructor
  · intro watched k
    simp only [pingCount, apiStreamSetup]
    rw [Nat.mul_div_cancel_left _ (by norm_num), Nat.mul_div_cancel_left _ (by norm_num)]
    omega
  · intro filename t
    rfl

/-! ## Log file registry (`/api/logs` listing, `getActiveLogFiles`,
and the broadcaster's choice of file to watch) -/

/-- The stat data of one `.log` file in the log directory (`readdir` plus
`statSync`; entries whose stat failed are already dropped).  Filenames are
abstracted to identifiers. -/
structure LogStat where
  filename : Nat
  size : Nat
  mtime : Nat
  deriving DecidableEq, Repr

/-- A `/api/logs` listing entry (`LOG_IMPROVEMENTS.md` lines 1004-1033):
age is `now - mtime`, `isActive` means age below 10 minutes,
`isCurrentlyActive` age below 30 seconds; the task-id extraction and the
process cross-reference are abstracted into the `assoc` map from filename to
associated pid. -/
structure LogFileDescriptor where
  filename : Nat
  size : Nat
  mtime : Nat
  age : Int
  isActive : Bool
  isCurrentlyActive : Bool
  associatedPid : Option Nat
  deriving DecidableEq, Repr

def mkLogDescriptor (now : Nat) (assoc : Nat → Option Nat) (s : LogStat) :
    LogFileDescriptor :=
  let age : Int := (now : Int) - (s.mtime : Int)
  { filename := s.filename, size := s.size, mtime := s.mtime, age := age,
    isActive := decide (age < 600000), isCurrentlyActive := decide (age < 30000),
    associatedPid := assoc s.filename }

/-- JS number coercion of a boolean, as the sort comparators use it. -/
def boolToInt (b : Bool) : Int := if b then 1 else 0

/-- The `/api/logs` sort comparator (`LOG_IMPROVEMENTS.md` lines 1035-1044):
currently-active first, then active, then by most-recent modification
time. -/
def apiLogsCmp (a b : LogFileDescriptor) : Int :=
  if a.isCurrentlyActive ≠ b.isCurrentlyActive then
    boolToInt b.isCurrentlyActive - boolToInt a.isCurrentlyActive
  else if a.isActive ≠ b.isActive then
    boolToInt b.isActive - boolToInt a.isActive
  else (b.mtime : Int) - (a.mtime : Int)

/-- `a` sorts no later than `b` under the `/api/logs` comparator. -/
def apiLogsLe (a b : LogFileDescriptor) : Prop := apiLogsCmp a b ≤ 0

instance : DecidableRel apiLogsLe := fun _ _ => inferInstanceAs (Decidable (_ ≤ 0))

/-- The `/api/logs` listing (`LOG_IMPROVEMENTS.md` lines 1004-1045): build a
descriptor per statted `.log` file, sort with the comparator (JS
`Array.sort` is stable; modeled by the stable `List.insertionSort` on the
relation "comparator at most 0"), and keep the first 100 entries. -/
def apiLogsListing (now : Nat) (assoc : Nat → Option Nat) (stats : List LogStat) :
    List LogFileDescriptor :=
  (List.insertionSort apiLogsLe (stats.map (mkLogDescriptor now assoc))).take 100

/-- An entry of `getActiveLogFiles` (`LOG_IMPROVEMENTS.md` lines 1362-1386):
like a listing entry but with `isActive` computed against the caller's
`maxAge` and no currently-active flag. -/
structure ActiveLogFile where
  filename : Nat
  mtime : Nat
  size : Nat
  age : Int
  isActive : Bool
  associatedPid : Option Nat
  deriving DecidableEq, Repr

def mkActiveLogFile (now : Nat) (maxAge : Int) (assoc : Nat → Option Nat) (s : LogStat) :
    ActiveLogFile :=
  let age : Int := (now : Int) - (s.mtime : Int)
  { filename := s.filename, mtime := s.mtime, size := s.size, age := age,
    isActive := decide (age < maxAge), associatedPid := assoc s.filename }

/-- The `getActiveLogFiles` sort comparator (`LOG_IMPROVEMENTS.md` lines
1388-1394): active first, then by most-recent modification time. -/
def activeFilesCmp (a b : ActiveLogFile) : Int :=
  if a.isActive ≠ b.isActive then boolToInt b.isActive - boolToInt a.isActive
  else (b.mtime : Int) - (a.mtime : Int)

/-- `a` sorts no later than `b` under the `getActiveLogFiles` comparator. -/
def activeFilesLe (a b : ActiveLogFile) : Prop := activeFilesCmp a b ≤ 0

instance : DecidableRel activeFilesLe := fun _ _ => inferInstanceAs (Decidable (_ ≤ 0))

/-- `getActiveLogFiles(maxAge)` (`LOG_IMPROVEMENTS.md` lines 1340-1401):
descriptors for every statted `.log` file, sorted active-first then by
mtime; no truncation. -/
def getActiveLogFiles (now : Nat) (maxAge : Int) (assoc : Nat → Option Nat)
    (stats : List LogStat) : List ActiveLogFile :=
  List.insertionSort activeFilesLe (stats.map (mkActiveLogFile now maxAge assoc))

/-- The broadcaster's choice of the single file to watch
(`LOG_IMPROVEMENTS.md` lines 1709-1719): among the listing's entries that
are active, prefer those with a resolved associated pid and take the first;
otherwise take the first active entry.  (With no active entries the code
falls back to a second `getActiveLogFiles` call with a one-hour window,
modeled as a separate invocation of the same function.) -/
def pickFileToWatch (activeFiles : List ActiveLogFile) : Option ActiveLogFile :=
  match activeFiles.filter (fun f => f.isActive) with
  | [] => none
  | f :: fs =>
    match (f :: fs).filter (fun g => g.associatedPid.isSome) with
    | [] => some f
    | g :: _ => some g

theorem apiLogsLe_total (a b : LogFileDescriptor) : apiLogsLe a b ∨ apiLogsLe b a := by
  obtain ⟨af, as, am, aage, aact, acur, apid⟩ := a
  obtain ⟨bf, bs, bm, bage, bact, bcur, bpid⟩ := b
  simp only [apiLogsLe, apiLogsCmp, boolToInt]
  cases acur <;> cases bcur <;> cases aact <;> cases bact <;> simp_all <;> omega

theorem apiLogsLe_trans (a b c : LogFileDescriptor) (hab : apiLogsLe a b)
    (hbc : apiLogsLe b c) : apiLogsLe a c := by
  obtain ⟨af, as, am, aage, aact, acur, apid⟩ := a
  obtain ⟨bf, bs, bm, bage, bact, bcur, bpid⟩ := b
  obtain ⟨cf, cs, cm, cage, cact, ccur, cpid⟩ := c
  simp only [apiLogsLe, apiLogsCmp, boolToInt] at hab hbc ⊢
  cases acur <;> cases bcur <;> cases ccur <;> cases aact <;> cases bact <;> cases cact <;>
    simp_all <;> omega

theorem activeFilesLe_total (a b : ActiveLogFile) : activeFilesLe a b ∨ activeFilesLe b a := by
  obtain ⟨af, am, as, aage, aact, apid⟩ := a
  obtain ⟨bf, bm, bs, bage, bact, bpid⟩ := b
  simp only [activeFilesLe, activeFilesCmp, boolToInt]
  cases aact <;> cases bact <;> simp_all <;> omega

theorem activeFilesLe_trans (a b c : ActiveLogFile) (hab : activeFilesLe a b)
    (hbc : activeFilesLe b c) : activeFilesLe a c := by
  obtain ⟨af, am, as, aage, aact, apid⟩ := a
  obtain ⟨bf, bm, bs, bage, bact, bpid⟩ := b
  obtain ⟨cf, cm, cs, cage, cact, cpid⟩ := c
  simp only [activeFilesLe, activeFilesCmp, boolToInt] at hab hbc ⊢
  cases aact <;> cases bact <;> cases cact <;> simp_all <;> omega

theorem apiLogsListing_sorted (now : Nat) (assoc : Nat → Option Nat)
    (stats : List LogStat) :
    List.Sorted apiLogsLe (apiLogsListing now assoc stats) := by
  haveI : IsTotal LogFileDescriptor apiLogsLe := ⟨apiLogsLe_total⟩
  haveI : IsTrans LogFileDescriptor apiLogsLe := ⟨apiLogsLe_trans⟩
  have hs := List.sorted_insertionSort apiLogsLe (stats.map (mkLogDescriptor now assoc))
  exact List.Pairwise.sublist (List.take_sublist _ _) hs

theorem getActiveLogFiles_sorted (now : Nat) (maxAge : Int) (assoc : Nat → Option Nat)
    (stats : List LogStat) :
    List.Sorted activeFilesLe (getActiveLogFiles now maxAge assoc stats) := by
  haveI : IsTotal ActiveLogFile activeFilesLe := ⟨activeFilesLe_total⟩
  haveI : IsTrans ActiveLogFile activeFilesLe := ⟨activeFilesLe_trans⟩
  exact List.sorted_insertionSort activeFilesLe _

theorem listing_orders_agree (now : Nat) (assoc assocB : Nat → Option Nat) (s t : LogStat) :
    (apiLogsLe (mkLogDescriptor now assoc s) (mkLogDescriptor now assoc t) ↔
      t.mtime ≤ s.mtime) ∧
    (activeFilesLe (mkActiveLogFile now 600000 assocB s) (mkActiveLogFile now 600000 assocB t)
      ↔ t.mtime ≤ s.mtime) := by
  constructor
  · simp only [apiLogsLe, apiLogsCmp, mkLogDescriptor, boolToInt]
    by_cases h1 : ((now : Int) - (s.mtime : Int)) < 30000 <;>
      by_cases h2 : ((now : Int) - (t.mtime : Int)) < 30000 <;>
      by_cases h3 : ((now : Int) - (s.mtime : Int)) < 600000 <;>
      by_cases h4 : ((now : Int) - (t.mtime : Int)) < 600000 <;>
      simp [h1, h2, h3, h4] <;> omega
  · simp only [activeFilesLe, activeFilesCmp, mkActiveLogFile, boolToInt]
    by_cases h3 : ((now : Int) - (s.mtime : Int)) < 600000 <;>
      by_cases h4 : ((now : Int) - (t.mtime : Int)) < 600000 <;>
      simp [h3, h4] <;> omega

theorem pickFileToWatch_spec (files : List ActiveLogFile) (f : ActiveLogFile)
    (hsorted : List.Sorted activeFilesLe files)
    (hpick : pickFileToWatch files = some f) :
    f ∈ files ∧ f.isActive = true ∧
    ∀ g ∈ files, g.isActive = true →
      (g.associatedPid.isSome = true →
        f.associatedPid.isSome = true ∧ (f = g ∨ activeFilesLe f g)) ∧
      (f.associatedPid.isSome = false → f = g ∨ activeFilesLe f g) := by
  have hsa : List.Sorted activeFilesLe (files.filter (fun x => x.isActive)) :=
    List.Pairwise.sublist (List.filter_sublist files) hsorted
  rcases ha : files.filter (fun x => x.isActive) with _ | ⟨a0, arest⟩
  · simp only [pickFileToWatch, ha] at hpick
    exact Option.noConfusion hpick
  · rw [ha] at hsa
    have hmemg : ∀ g ∈ files, g.isActive = true → g ∈ a0 :: arest := by
      intro g hg hact
      rw [← ha]
      exact List.mem_filter.mpr ⟨hg, by simpa using hact⟩
    rcases hp : (a0 :: arest).filter (fun g => g.associatedPid.isSome) with _ | ⟨p0, prest⟩
    · simp only [pickFileToWatch, ha, hp] at hpick
      obtain rfl : a0 = f := Option.some.inj hpick
      have ha0mem : a0 ∈ files.filter (fun x => x.isActive) := by
        rw [ha]; exact List.mem_cons_self a0 arest
      have hnopid : ∀ g ∈ a0 :: arest, g.associatedPid.isSome = false := by
        intro g hg
        have := List.filter_eq_nil_iff.mp hp g hg
        simpa using this
      refine ⟨List.mem_of_mem_filter ha0mem, by simpa using List.of_mem_filter ha0mem, ?_⟩
      intro g hg hact
      have hgmem : g ∈ a0 :: arest := hmemg g hg hact
      constructor
      · intro hpid
        exact absurd hpid (by simp [hnopid g hgmem])
      · intro _
        rcases List.mem_cons.mp hgmem with rfl | hgtail
        · exact Or.inl rfl
        · exact Or.inr (List.rel_of_sorted_cons hsa g hgtail)
    · simp only [pickFileToWatch, ha, hp] at hpick
      obtain rfl : p0 = f := Option.some.inj hpick
      have hsp : List.Sorted activeFilesLe ((a0 :: arest).filter
          (fun g => g.associatedPid.isSome)) :=
        List.Pairwise.sublist (List.filter_sublist _) hsa
      rw [hp] at hsp
      have hp0mem : p0 ∈ (a0 :: arest).filter (fun g => g.associatedPid.isSome) := by
        rw [hp]; exact List.mem_cons_self p0 prest
      have hp0active : p0 ∈ files.filter (fun x => x.isActive) := by
        rw [ha]; exact List.mem_of_mem_filter hp0mem
      have hp0pid : p0.associatedPid.isSome = true := by
        simpa using List.of_mem_filter hp0mem
      refine ⟨List.mem_of_mem_filter hp0active,
        by simpa using List.of_mem_filter hp0active, ?_⟩
      intro g hg hact
      constructor
      · intro hpid
        refine ⟨hp0pid, ?_⟩
        have hgmem : g ∈ (a0 :: arest).filter (fun x => x.associatedPid.isSome) :=
          List.mem_filter.mpr ⟨hmemg g hg hact, by simpa using hpid⟩
        rw [hp] at hgmem
        rcases List.mem_cons.mp hgmem with rfl | hgtail
        · exact Or.inl rfl
        · exact Or.inr (List.rel_of_sorted_cons hsp g hgtail)
      · intro hnone
        rw [hp0pid] at hnone
        exact Bool.noConfusion hnone

/-- C9: the `/api/logs` listing is sorted currently-active first, then
active, then by most-recent modification time, and is truncated to 100
entries; on descriptors computed from the same clock instant this ordering
coincides with the `getActiveLogFiles` ordering the broadcaster consumes
(both amount to most-recent-mtime first, because both activity flags are
monotone in the modification time); `getActiveLogFiles` returns its entries
in that order, and the broadcaster's pick is the first entry, in that same
order, of its preferred candidates (active entries with a resolved
associated pid when any exist, otherwise all active entries). -/
theorem log_listing_order_and_broadcaster_pick :
    (∀ (now : Nat) (assoc : Nat → Option Nat) (stats : List LogStat),
      List.Sorted apiLogsLe (apiLogsListing now assoc stats) ∧
      (apiLogsListing now assoc stats).length ≤ 100) ∧
    (∀ (now : Nat) (assoc assocB : Nat → Option Nat) (s t : LogStat),
      (apiLogsLe (mkLogDescriptor now assoc s) (mkLogDescriptor now assoc t) ↔
        t.mtime ≤ s.mtime) ∧
      (activeFilesLe (mkActiveLogFile now 600000 assocB s) (mkActiveLogFile now 600000 assocB t)
        ↔ t.mtime ≤ s.mtime)) ∧
    (∀ (now : Nat) (maxAge : Int) (assoc : Nat → Option Nat) (stats : List LogStat),
      List.Sorted activeFilesLe (getActiveLogFiles now maxAge assoc stats)) ∧
    (∀ (files : List ActiveLogFile) (f : ActiveLogFile),
      List.Sorted activeFilesLe files → pickFileToWatch files = some f →
      f ∈ files ∧ f.isActive = true ∧
      ∀ g ∈ files, g.isActive = true →
        (g.associatedPid.isSome = true →
          f.associatedPid.isSome = true ∧ (f = g ∨ activeFilesLe f g)) ∧
        (f.associatedPid.isSome = false → f = g ∨ activeFilesLe f g)) := by
  refine ⟨?_, ?_, ?_, ?_⟩
  · intro now assoc stats
    exact ⟨apiLogsListing_sorted now assoc stats, List.length_take_le 100 _⟩
  · intro now assoc assocB s t
    exact listing_orders_agree now assoc assocB s t
  · intro now maxAge assoc stats
    exact getActiveLogFiles_sorted now maxAge assoc stats
  · exact pickFileToWatch_spec

/-- A sorted two-entry candidate list: file 1 is newer but has no associated
pid, file 2 is older and is associated with pid 5. -/
def demoActiveFiles : List ActiveLogFile :=
  [⟨1, 900, 10, 100, true, none⟩, ⟨2, 800, 10, 200, true, some 5⟩]

/-- Concrete run of C9's broadcaster-pick clause: the broadcaster prefers
the pid-associated file 2 even though file 1 sorts first, and the picked
entry is an active member of the candidate list. -/
theorem broadcaster_pick_witness :
    pickFileToWatch demoActiveFiles = some ⟨2, 800, 10, 200, true, some 5⟩ ∧
    (⟨2, 800, 10, 200, true, some 5⟩ : ActiveLogFile) ∈ demoActiveFiles ∧
    (⟨2, 800, 10, 200, true, some 5⟩ : ActiveLogFile).isActive = true := by
  have h := log_listing_order_and_broadcaster_pick.2.2.2 demoActiveFiles
    ⟨2, 800, 10, 200, true, some 5⟩ (by decide) rfl
  exact ⟨rfl, h.1, h.2.1⟩

end RoadmapDashboard
